import Mathlib

/-!
Verification development for django-modelqueue (src/modelqueue/__init__.py).

The repository has two verifiable layers:

* the status codec (`Status.combine`, `Status.parse`, `Status.minimum`,
  `Status.maximum`, `datetime_to_int`), a pure mapping between
  `(state, priority, attempts)` triples and 19-digit integers, and
* the queue runner `run`, which reclaims one timed-out WORKING row,
  claims one eligible WAITING row, invokes a callback and resolves the
  claimed row according to the callback outcome.

Shallow embedding conventions:

* Python integers are `Int` where signs matter (codec inputs) and `Nat`
  for encoded statuses (a status that passes the codec's length
  assertion is a string of 19 decimal digits, hence nonnegative).
* `Status.combine` in the source renders
  `'{state}{priority:017d}{attempts}'`, asserts the result has 19
  characters and converts it back with `int(...)`.  That succeeds with
  an all-digit 19-character string exactly when `state` and `attempts`
  render as single digits (`0..9`) and `priority` is nonnegative with
  at most 17 digits; every other input fails the length assertion or
  embeds a sign that makes `int(...)` raise.  The embedding returns
  `none` for both failure modes and otherwise the positional value
  `state * 10^18 + priority * 10 + attempts`.
* `datetime` objects are a record of calendar fields; the Python
  constructor's validation (year 1..9999, month 1..12, day bounded by
  the month length, hour < 24, minute < 60, second < 60,
  microsecond <= 999999) is `mkDatetime`.
* `Status.parse` with `datetime=True` runs `str(...)` on the extracted
  priority integer (which drops leading zeros) and slices fixed
  character ranges; the embedding performs the same slicing on the
  big-endian digit list of the integer, with `int('')` modelled as
  failure.
* the runner's wall-clock reads (`now()`) are threaded as explicit
  parameters, one per textual call site, with time measured on the
  abstract 17-digit priority axis; exceptions escaping a
  `transaction.atomic` block roll the row set back to its state at
  transaction entry.
-/

set_option maxRecDepth 8000

namespace ModelQueue

/-- Calendar timestamp record mirroring the fields of a Python
`datetime.datetime` value (UTC is implicit; `tzinfo` carries no data
relevant to the codec). -/
structure DateTime where
  year : Nat
  month : Nat
  day : Nat
  hour : Nat
  minute : Nat
  second : Nat
  microsecond : Nat
deriving DecidableEq, Repr

/-- Leap-year test of the Gregorian calendar, as implemented by Python
`calendar.isleap` and used by `datetime` day validation. -/
def isLeap (y : Nat) : Bool :=
  (y % 4 == 0 && y % 100 != 0) || y % 400 == 0

/-- Number of days in the given month, mirroring Python `datetime`
constructor validation. -/
def daysInMonth (y m : Nat) : Nat :=
  if m = 2 then (if isLeap y then 29 else 28)
  else if m = 4 ∨ m = 6 ∨ m = 9 ∨ m = 11 then 30
  else 31

/-- Validity predicate of a Python `datetime.datetime` value: exactly
the inputs the constructor accepts. -/
def DateTime.valid (d : DateTime) : Prop :=
  1 ≤ d.year ∧ d.year ≤ 9999 ∧ 1 ≤ d.month ∧ d.month ≤ 12 ∧
  1 ≤ d.day ∧ d.day ≤ daysInMonth d.year d.month ∧
  d.hour < 24 ∧ d.minute < 60 ∧ d.second < 60 ∧ d.microsecond ≤ 999999

instance (d : DateTime) : Decidable d.valid := by
  unfold DateTime.valid; infer_instance

/-- Python `datetime` constructor: validates the fields and builds the
record, failing (ValueError) on any out-of-range field. -/
def mkDatetime (y mo da h mi s us : Nat) : Option DateTime :=
  if DateTime.valid ⟨y, mo, da, h, mi, s, us⟩ then
    some ⟨y, mo, da, h, mi, s, us⟩
  else none

/-- Embedding of `datetime_to_int` (src lines 41-63): the datetime is
rendered as the 17-digit string `YYYYMMDDHHMMSSmmm` with the
millisecond field `int(microsecond / 1000.0)` (exact truncating
division, since both operands are below 2^53 the float division
rounds to a value with the same floor) and converted to an integer.
For a valid datetime each field fits its digit width, so the string
concatenation equals this positional sum. -/
def datetime_to_int (d : DateTime) : Nat :=
  d.year * 10 ^ 13 + d.month * 10 ^ 11 + d.day * 10 ^ 9 +
    d.hour * 10 ^ 7 + d.minute * 10 ^ 5 + d.second * 10 ^ 3 +
    d.microsecond / 1000

/-- Truncation of a datetime to millisecond precision: the composite
effect of `combine` followed by `parse` on the sub-millisecond part. -/
def truncMillis (d : DateTime) : DateTime :=
  ⟨d.year, d.month, d.day, d.hour, d.minute, d.second,
    d.microsecond / 1000 * 1000⟩

namespace Status

/-- `Status.state_offset` (src line 117). -/
def state_offset : Nat := 1000000000000000000

/-- `Status.max_attempts` (src line 125). -/
def max_attempts : Nat := 9

/-- State numbers of `Status.states` (src lines 118-124): created 1,
waiting 2, working 3, finished 4, canceled 5. -/
def states : List Nat := [1, 2, 3, 4, 5]

/-- Embedding of `Status.combine` (src lines 243-268) on integer
priorities.  The source formats `'{state}{priority:017d}{attempts}'`,
asserts the result has exactly 19 characters, and converts it with
`int(...)`.  The concatenation has 19 characters with no embedded sign
iff `0 <= state <= 9`, `0 <= priority < 10^17` and
`0 <= attempts <= 9` (a negative component renders a minus sign which
either lengthens the string past 19 characters or makes the integer
conversion raise; priority at or above `10^17` overflows the padding
width).  On success the digit string reads positionally as
`state * 10^18 + priority * 10 + attempts`. -/
def combine (state priority attempts : Int) : Option Nat :=
  if 0 ≤ state ∧ state ≤ 9 ∧ 0 ≤ priority ∧ priority < 10 ^ 17 ∧
      0 ≤ attempts ∧ attempts ≤ 9 then
    some (state.toNat * state_offset + priority.toNat * 10 + attempts.toNat)
  else none

/-- `Status.combine` applied to a datetime priority (src lines
259-260): the datetime is first rendered through `datetime_to_int`. -/
def combineDT (state : Int) (priority : DateTime) (attempts : Int) : Option Nat :=
  combine state (datetime_to_int priority) attempts

/-- `Status.combine` at nonnegative arguments, the only way the runner
ever calls it (states come from the `State` enumeration, priorities
from `datetime_to_int`, attempts from the `attempts` digit).  The
guard is the validity condition of `combine` restricted to naturals;
`combineN_eq_combine` below proves the two functions agree on all
nonnegative inputs. -/
def combineN (state priority attempts : Nat) : Option Nat :=
  if state ≤ 9 ∧ priority < 10 ^ 17 ∧ attempts ≤ 9 then
    some (state * state_offset + priority * 10 + attempts)
  else none

/-- Embedding of `Status.minimum` (src lines 190-205). -/
def minimum (state : Nat) : Nat := state * state_offset

/-- Embedding of `Status.maximum` (src lines 207-222). -/
def maximum (state : Nat) : Nat := (state + 1) * state_offset - 1

/-- Embedding of the `Status.state` property (src lines 127-137):
`next(state for state in self.states if state == self // state_offset)`,
which yields the matching state or raises StopIteration when the
leading digit is not one of the five states. -/
def stateP (s : Nat) : Option Nat :=
  states.find? (fun st => st == s / state_offset)

/-- Embedding of the `Status.priority` property (src lines 139-148):
`int(format(self, '019d')[1:-1])`.  For a status below `10^19` the
19-digit zero-padded rendering has the priority in character positions
1..17, so the sliced integer is `s / 10 % 10^17`. -/
def priorityP (s : Nat) : Nat := s / 10 % 10 ^ 17

/-- Embedding of the `Status.attempts` property (src lines 150-159):
`self % 10`. -/
def attemptsP (s : Nat) : Nat := s % 10

/-- Little-endian decimal digits with explicit fuel, so that the
function is structurally recursive and evaluates inside the kernel. -/
def digitsFuel : Nat → Nat → List Nat
  | 0, _ => []
  | fuel + 1, n => if n = 0 then [] else n % 10 :: digitsFuel fuel (n / 10)

/-- Big-endian digit list of `str(n)` for a nonnegative Python integer:
one `'0'` character for zero, otherwise the decimal digits without
leading zeros. -/
def strDigits (n : Nat) : List Nat :=
  if n = 0 then [0] else (digitsFuel n n).reverse

/-- Numeric value of a little-endian decimal digit list. -/
def ofDigitsLE : List Nat → Nat
  | [] => 0
  | d :: ds => d + 10 * ofDigitsLE ds

/-- Embedding of `int(s[i:j])` on a digit string held as a big-endian
digit list: Python slicing clamps the bounds to the string length, and
`int('')` raises ValueError. -/
def sliceInt (ds : List Nat) (i j : Nat) : Option Nat :=
  if ((ds.drop i).take (j - i)).isEmpty then none
  else some (ofDigitsLE ((ds.drop i).take (j - i)).reverse)

/-- Embedding of `Status.parse` with `datetime=False` (src lines
270-314): returns the `(state, priority, attempts)` triple, failing
when the `state` property raises. -/
def parseNoDT (s : Nat) : Option (Nat × Nat × Nat) :=
  (stateP s).map (fun st => (st, priorityP s, attemptsP s))

/-- Embedding of `Status.parse` with the default `datetime=True` (src
lines 270-314): the priority integer is rendered with `str` (dropping
leading zeros), fixed character ranges are sliced and converted with
`int`, and a `datetime` is constructed from them; any empty slice or
out-of-range field raises, modelled as `none`. -/
def parseDT (s : Nat) : Option (Nat × DateTime × Nat) := do
  let ds := strDigits (priorityP s)
  let year ← sliceInt ds 0 4
  let month ← sliceInt ds 4 6
  let day ← sliceInt ds 6 8
  let hour ← sliceInt ds 8 10
  let minute ← sliceInt ds 10 12
  let second ← sliceInt ds 12 14
  let millis ← sliceInt ds 14 17
  let d ← mkDatetime year month day hour minute second (millis * 1000)
  let st ← stateP s
  pure (st, d, attemptsP s)

end Status

/-- Queue row: the primary key and the status field value.  The runner
never reads or writes any other column, so application data is
omitted. -/
structure Row where
  rid : Nat
  status : Nat
deriving DecidableEq, Repr

/-- Outcome of the `action` callback in `run`: normal return, one of
the three control-flow signals `Retry` / `Abort` / `Cancel` (src lines
349-395, the first two carrying an optional delay override), or any
other raised fault including `KeyboardInterrupt`. -/
inductive Outcome where
  | ok : Outcome
  | retrySig : Option Nat → Outcome
  | abortSig : Option Nat → Outcome
  | cancelSig : Outcome
  | fault : Outcome
deriving DecidableEq, Repr

/-- Result of one `run` call: `ok rows ret` is a normal return of
`ret` (`none` models Python `None`, "no waiting model") with `rows`
the committed row set; `okRaise rows w` is the generic-fault path
where the resolution of `w` was committed and the fault then
re-raised; `err rows` is an uncaught validation error (a failed
`assert` in the codec, a failed runner `assert`, or unrepresentable
time arithmetic), with `rows` the committed row set after rollback of
any open transaction. -/
inductive RunOut where
  | ok : List Row → Option Row → RunOut
  | okRaise : List Row → Row → RunOut
  | err : List Row → RunOut
deriving DecidableEq, Repr

/-- Write-back of a row's status by primary key (`worker.save()`). -/
def updateRow (rows : List Row) (rid : Nat) (s : Nat) : List Row :=
  rows.map (fun r => if r.rid = rid then ⟨r.rid, s⟩ else r)

/-- Embedding of a locked LIMIT-1 query: filter the rows whose status
lies in the inclusive range `[lo, hi]`, order by the status column
ascending and keep the first row.  Rows with equal statuses are
returned in storage order, modelled as list order. -/
def selectMinRow (rows : List Row) (lo hi : Nat) : Option Row :=
  match rows.filter (fun r => decide (lo ≤ r.status ∧ r.status ≤ hi)) with
  | [] => none
  | r :: rs =>
      some (rs.foldl (fun best x => if x.status < best.status then x else best) r)

/-- Embedding of the reclaim step of `run` (src lines 436-452), the
first half of the Phase A transaction: select the lowest-status
WORKING row at or below `Status.working(now() - timeout, max_attempts)`;
if one exists, increment its attempts and rewrite it to WAITING when
the new count is within `retry`, else to CANCELED, in both branches
with priority `now() + delay`.  `n1` and `n2` are the two `now()`
reads (src lines 439 and 448).  `none` models an exception (codec
assertion, or `now() - timeout` not representable, which Python raises
as OverflowError), which aborts the enclosing transaction. -/
def reclaimStep (rows : List Row) (retry timeout delay n1 n2 : Nat) :
    Option (List Row) :=
  if timeout ≤ n1 then
    match Status.combineN 3 (n1 - timeout) 9 with
    | none => none
    | some maxWorking =>
      match selectMinRow rows (Status.minimum 3) maxWorking with
      | none => some rows
      | some w =>
        match Status.stateP w.status with
        | none => none
        | some st =>
          if st = 3 then
            let attempts := Status.attemptsP w.status + 1
            let state : Nat := if attempts ≤ retry then 2 else 5
            match Status.combineN state (n2 + delay) attempts with
            | none => none
            | some s2 => some (updateRow rows w.rid s2)
          else none
  else none

/-- Embedding of Phase B of `run` (src lines 473-499): the callback
has been invoked on the claimed row (claim-time attempts `aClaim`) and
its outcome is resolved to a new status, persisted in its own atomic
transaction; the generic fault path re-raises after persisting.  `n5`
is the `now()` read of the taken resolution branch.  A codec assertion
failure inside a handler leaves the row in its claimed WORKING status
and escapes as an error. -/
def phaseB (rows : List Row) (rid aClaim : Nat) (outcome : Outcome)
    (retry delay n5 : Nat) : RunOut :=
  let attempts := aClaim + 1
  match outcome with
  | .ok =>
    match Status.combineN 4 n5 attempts with
    | some s => .ok (updateRow rows rid s) (some ⟨rid, s⟩)
    | none => .err rows
  | .retrySig dOv =>
    let d := dOv.getD delay
    match Status.combineN 2 (n5 + d) (attempts - 1) with
    | some s => .ok (updateRow rows rid s) (some ⟨rid, s⟩)
    | none => .err rows
  | .abortSig dOv =>
    let state : Nat := if attempts ≤ retry then 2 else 5
    let d := dOv.getD delay
    let priority := n5 + (if attempts ≤ retry then d else 0)
    match Status.combineN state priority attempts with
    | some s => .ok (updateRow rows rid s) (some ⟨rid, s⟩)
    | none => .err rows
  | .cancelSig =>
    match Status.combineN 5 n5 attempts with
    | some s => .ok (updateRow rows rid s) (some ⟨rid, s⟩)
    | none => .err rows
  | .fault =>
    let state : Nat := if attempts ≤ retry then 2 else 5
    let priority := n5 + (if attempts ≤ retry then delay else 0)
    match Status.combineN state priority attempts with
    | some s => .okRaise (updateRow rows rid s) ⟨rid, s⟩
    | none => .err rows

/-- Claim of the selected WAITING row (src lines 466-471): assert its
state, rewrite it to WORKING with priority `now()` (the `n4` read)
preserving its attempts, commit Phase A, then resolve Phase B.  An
exception rolls the whole Phase A transaction back to `rows`. -/
def claimStage (rows rows1 : List Row) (w : Row) (outcome : Outcome)
    (retry delay n4 n5 : Nat) : RunOut :=
  match Status.stateP w.status with
  | none => .err rows
  | some st =>
    if st = 2 then
      let aClaim := Status.attemptsP w.status
      match Status.combineN 3 n4 aClaim with
      | none => .err rows
      | some claimed =>
        phaseB (updateRow rows1 w.rid claimed) w.rid aClaim outcome
          retry delay n5
    else .err rows

/-- Selection of the lowest-status eligible WAITING row (src lines
454-464): when none exists, the Phase A transaction commits (the
reclaim is kept) and `None` is returned. -/
def waitStage (rows rows1 : List Row) (outcome : Outcome)
    (retry delay n3 n4 n5 : Nat) : RunOut :=
  match Status.combineN 2 n3 9 with
  | none => .err rows
  | some maxWaiting =>
    match selectMinRow rows1 (Status.minimum 2) maxWaiting with
    | none => .ok rows1 none
    | some w => claimStage rows rows1 w outcome retry delay n4 n5

/-- Embedding of `run` (src lines 398-499): the entry assertion
`0 <= retry <= 8`, then Phase A (reclaim followed by claim, one atomic
transaction, factored here into `reclaimStep`, `waitStage` and
`claimStage` in source order) and Phase B (`phaseB`).  `n1 n2 n3 n4 n5`
are the `now()` reads at src lines 439, 448, 456, 470 and the
resolution branch, in source order; an exception inside the Phase A
transaction rolls the row set back to the entry value `rows`. -/
def run (rows : List Row) (outcome : Outcome)
    (retry timeout delay n1 n2 n3 n4 n5 : Nat) : RunOut :=
  if retry ≤ 8 then
    match reclaimStep rows retry timeout delay n1 n2 with
    | none => .err rows
    | some rows1 => waitStage rows rows1 outcome retry delay n3 n4 n5
  else .err rows

namespace Status

theorem digitsFuel_eq (fuel : Nat) : ∀ n : Nat, n ≤ fuel →
    digitsFuel fuel n = Nat.digits 10 n := by
  induction fuel with
  | zero =>
    intro n hn
    interval_cases n
    simp [digitsFuel]
  | succ fuel ih =>
    intro n hn
    by_cases hz : n = 0
    · subst hz
      simp [digitsFuel]
    · simp only [digitsFuel, if_neg hz]
      rw [ih (n / 10) (by omega)]
      rw [Nat.digits_def' (by norm_num : (1 : Nat) < 10) (Nat.pos_of_ne_zero hz)]

theorem digits_drop (k : Nat) : ∀ p : Nat,
    (Nat.digits 10 p).drop k = Nat.digits 10 (p / 10 ^ k) := by
  induction k with
  | zero => simp
  | succ k ih =>
    intro p
    by_cases hz : p = 0
    · subst hz
      simp
    · rw [Nat.digits_def' (by norm_num : (1 : Nat) < 10) (Nat.pos_of_ne_zero hz)]
      rw [List.drop_succ_cons, ih (p / 10), Nat.div_div_eq_div_mul]
      rw [pow_succ']

theorem ofDigitsLE_take (k : Nat) : ∀ p : Nat,
    ofDigitsLE ((Nat.digits 10 p).take k) = p % 10 ^ k := by
  induction k with
  | zero =>
    intro p
    simp [ofDigitsLE, Nat.mod_one]
  | succ k ih =>
    intro p
    by_cases hz : p = 0
    · subst hz
      simp [ofDigitsLE]
    · rw [Nat.digits_def' (by norm_num : (1 : Nat) < 10) (Nat.pos_of_ne_zero hz)]
      rw [List.take_succ_cons, ofDigitsLE, ih (p / 10)]
      rw [pow_succ', Nat.mod_mul]

theorem digits_length_eq (p k : Nat) (hk1 : 10 ^ k ≤ p) (hk2 : p < 10 ^ (k + 1)) :
    (Nat.digits 10 p).length = k + 1 := by
  have hpow : 0 < 10 ^ k := Nat.pos_pow_of_pos k (by norm_num)
  rw [Nat.digits_len 10 p (by norm_num) (by omega)]
  rw [Nat.log_eq_of_pow_le_of_lt_pow hk1 hk2]

theorem reverse_drop_eq (l : List Nat) (i : Nat) :
    l.reverse.drop i = (l.take (l.length - i)).reverse := by
  have h := List.rdrop_eq_reverse_drop_reverse l i
  rw [List.rdrop] at h
  rw [h, List.reverse_reverse]

theorem reverse_take_eq (l : List Nat) (i : Nat) :
    l.reverse.take i = (l.drop (l.length - i)).reverse := by
  have h := List.rtake_eq_reverse_take_reverse l i
  rw [List.rtake] at h
  rw [h, List.reverse_reverse]

theorem sliceInt_digits (p i j : Nat) (hij : i < j)
    (hj : j ≤ (Nat.digits 10 p).length) :
    sliceInt (Nat.digits 10 p).reverse i j =
      some (p / 10 ^ ((Nat.digits 10 p).length - j) % 10 ^ (j - i)) := by
  have hsub : (((Nat.digits 10 p).reverse.drop i).take (j - i)) =
      (((Nat.digits 10 p).drop ((Nat.digits 10 p).length - j)).take (j - i)).reverse := by
    rw [reverse_drop_eq]
    rw [reverse_take_eq ((Nat.digits 10 p).take ((Nat.digits 10 p).length - i)) (j - i)]
    have hd : (((Nat.digits 10 p).take ((Nat.digits 10 p).length - i)).length - (j - i)) =
        (Nat.digits 10 p).length - j := by
      rw [List.length_take]
      omega
    rw [hd]
    have hsplit : (Nat.digits 10 p).length - i =
        ((Nat.digits 10 p).length - j) + (j - i) := by omega
    rw [hsplit]
    rw [List.take_drop]
  unfold sliceInt
  rw [hsub]
  have hlen : ((((Nat.digits 10 p).drop ((Nat.digits 10 p).length - j)).take
      (j - i)).reverse).length = j - i := by
    rw [List.length_reverse, List.length_take, List.length_drop]
    omega
  rw [if_neg (by
    rw [List.isEmpty_iff_length_eq_zero, hlen]
    omega)]
  rw [List.reverse_reverse]
  rw [digits_drop, ofDigitsLE_take]

theorem combine_nat_eq (st p a : Nat) (hst : st ≤ 9) (hp : p < 10 ^ 17)
    (ha : a ≤ 9) :
    combine (st : Int) (p : Int) (a : Int) =
      some (st * state_offset + p * 10 + a) := by
  unfold combine
  rw [if_pos]
  · simp
  · refine ⟨Int.natCast_nonneg st, by exact_mod_cast hst, Int.natCast_nonneg p,
      by exact_mod_cast hp, Int.natCast_nonneg a, by exact_mod_cast ha⟩

theorem combine_nat_some_iff (st p a s : Nat) :
    combine (st : Int) (p : Int) (a : Int) = some s ↔
      st ≤ 9 ∧ p < 10 ^ 17 ∧ a ≤ 9 ∧ s = st * state_offset + p * 10 + a := by
  by_cases h : st ≤ 9 ∧ p < 10 ^ 17 ∧ a ≤ 9
  · obtain ⟨h1, h2, h3⟩ := h
    rw [combine_nat_eq st p a h1 h2 h3]
    simp only [Option.some_inj]
    constructor
    · intro hs
      exact ⟨h1, h2, h3, hs.symm⟩
    · intro hs
      exact hs.2.2.2.symm
  · unfold combine
    rw [if_neg]
    · constructor
      · intro hs
        exact Option.noConfusion hs
      · intro hs
        exact absurd ⟨hs.1, hs.2.1, hs.2.2.1⟩ h
    · intro hc
      refine absurd ⟨?_, ?_, ?_⟩ h
      · exact_mod_cast hc.2.1
      · exact_mod_cast hc.2.2.2.1
      · exact_mod_cast hc.2.2.2.2.2

theorem stateP_eq_of_div (s v : Nat) (h : s / state_offset = v)
    (h1 : 1 ≤ v) (h5 : v ≤ 5) : stateP s = some v := by
  unfold stateP states
  simp only [h]
  interval_cases v <;> rfl

theorem priorityP_eq (st p a : Nat) (hp : p < 10 ^ 17) (ha : a ≤ 9) :
    priorityP (st * state_offset + p * 10 + a) = p := by
  unfold priorityP state_offset
  have h17 : (10 : Nat) ^ 17 = 100000000000000000 := by norm_num
  rw [h17]
  rw [h17] at hp
  omega

theorem attemptsP_eq (st p a : Nat) (ha : a ≤ 9) :
    attemptsP (st * state_offset + p * 10 + a) = a := by
  unfold attemptsP state_offset
  omega

theorem div_offset_eq (st p a : Nat) (hp : p < 10 ^ 17) (ha : a ≤ 9) :
    (st * state_offset + p * 10 + a) / state_offset = st := by
  unfold state_offset
  have h17 : (10 : Nat) ^ 17 = 100000000000000000 := by norm_num
  rw [h17] at hp
  omega

end Status

theorem daysInMonth_le (y m : Nat) : daysInMonth y m ≤ 31 := by
  unfold daysInMonth
  split
  · split <;> norm_num
  · split <;> norm_num

theorem datetime_to_int_lt (d : DateTime) (hd : d.valid) :
    datetime_to_int d < 10 ^ 17 := by
  obtain ⟨hy1, hy2, hm1, hm2, hd1, hd2, hh, hmi, hs, hus⟩ := hd
  have hdm := daysInMonth_le d.year d.month
  unfold datetime_to_int
  norm_num
  omega

theorem datetime_to_int_ge (d : DateTime) (hy : 1000 ≤ d.year) :
    10 ^ 16 ≤ datetime_to_int d := by
  unfold datetime_to_int
  norm_num
  omega

theorem datetime_to_int_fields (d : DateTime) (hd : d.valid) :
    datetime_to_int d / 10 ^ 13 % 10 ^ 4 = d.year ∧
    datetime_to_int d / 10 ^ 11 % 10 ^ 2 = d.month ∧
    datetime_to_int d / 10 ^ 9 % 10 ^ 2 = d.day ∧
    datetime_to_int d / 10 ^ 7 % 10 ^ 2 = d.hour ∧
    datetime_to_int d / 10 ^ 5 % 10 ^ 2 = d.minute ∧
    datetime_to_int d / 10 ^ 3 % 10 ^ 2 = d.second ∧
    datetime_to_int d % 10 ^ 3 = d.microsecond / 1000 := by
  obtain ⟨hy1, hy2, hm1, hm2, hd1, hd2, hh, hmi, hs, hus⟩ := hd
  have hdm := daysInMonth_le d.year d.month
  unfold datetime_to_int
  norm_num
  refine ⟨?_, ?_, ?_, ?_, ?_, ?_, ?_⟩ <;> omega

namespace Status

theorem parseDT_eq_of_priority (s p : Nat) (hpr : priorityP s = p)
    (hp16 : 10 ^ 16 ≤ p) (hp17 : p < 10 ^ 17) :
    parseDT s =
      (mkDatetime (p / 10000000000000 % 10000) (p / 100000000000 % 100)
          (p / 1000000000 % 100) (p / 10000000 % 100) (p / 100000 % 100)
          (p / 1000 % 100) (p % 1000 * 1000)).bind
        (fun dv => (stateP s).bind (fun st => some (st, dv, attemptsP s))) := by
  have hz : p ≠ 0 := by
    have h16 : (0 : Nat) < 10 ^ 16 := Nat.pos_pow_of_pos 16 (by norm_num)
    omega
  have hlen : (Nat.digits 10 p).length = 17 := digits_length_eq p 16 hp16 hp17
  have hds : strDigits p = (Nat.digits 10 p).reverse := by
    unfold strDigits
    rw [if_neg hz, digitsFuel_eq p p le_rfl]
  have s1 := sliceInt_digits p 0 4 (by norm_num) (by rw [hlen]; norm_num)
  have s2 := sliceInt_digits p 4 6 (by norm_num) (by rw [hlen]; norm_num)
  have s3 := sliceInt_digits p 6 8 (by norm_num) (by rw [hlen]; norm_num)
  have s4 := sliceInt_digits p 8 10 (by norm_num) (by rw [hlen]; norm_num)
  have s5 := sliceInt_digits p 10 12 (by norm_num) (by rw [hlen]; norm_num)
  have s6 := sliceInt_digits p 12 14 (by norm_num) (by rw [hlen]; norm_num)
  have s7 := sliceInt_digits p 14 17 (by norm_num) (by rw [hlen])
  rw [hlen] at s1 s2 s3 s4 s5 s6 s7
  norm_num at s1 s2 s3 s4 s5 s6 s7
  simp only [parseDT, hpr, hds, s1, s2, s3, s4, s5, s6, s7,
    Option.bind_eq_bind, Option.some_bind, Option.pure_def]

theorem combineDT_parseDT (st a : Nat) (d : DateTime) (hst1 : 1 ≤ st)
    (hst5 : st ≤ 5) (ha : a ≤ 9) (hd : d.valid) (hy : 1000 ≤ d.year) :
    ∃ s, combineDT (st : Int) d (a : Int) = some s ∧
      parseDT s = some (st, truncMillis d, a) := by
  have hp17 := datetime_to_int_lt d hd
  have hp16 := datetime_to_int_ge d hy
  refine ⟨st * state_offset + datetime_to_int d * 10 + a, ?_, ?_⟩
  · unfold combineDT
    exact combine_nat_eq st (datetime_to_int d) a (by omega) hp17 ha
  · rw [parseDT_eq_of_priority _ (datetime_to_int d)
      (priorityP_eq st (datetime_to_int d) a hp17 ha) hp16 hp17]
    obtain ⟨f1, f2, f3, f4, f5, f6, f7⟩ := datetime_to_int_fields d hd
    norm_num at f1 f2 f3 f4 f5 f6 f7
    rw [f1, f2, f3, f4, f5, f6, f7]
    have hmk : mkDatetime d.year d.month d.day d.hour d.minute d.second
        (d.microsecond / 1000 * 1000) = some (truncMillis d) := by
      obtain ⟨hy1, hy2, hm1, hm2, hd1, hd2, hh, hmi, hs, hus⟩ := hd
      have hus2 : d.microsecond / 1000 * 1000 ≤ 999999 := by omega
      have hv : DateTime.valid ⟨d.year, d.month, d.day, d.hour, d.minute,
          d.second, d.microsecond / 1000 * 1000⟩ :=
        ⟨hy1, hy2, hm1, hm2, hd1, hd2, hh, hmi, hs, hus2⟩
      unfold mkDatetime truncMillis
      rw [if_pos hv]
    rw [hmk]
    rw [stateP_eq_of_div _ st (div_offset_eq st (datetime_to_int d) a hp17 ha)
      hst1 hst5]
    simp only [Option.some_bind]
    rw [attemptsP_eq st (datetime_to_int d) a ha]

theorem attemptsP_le (s : Nat) : attemptsP s ≤ 9 := by
  unfold attemptsP
  omega

theorem combineN_eq_combine (st p a : Nat) :
    combineN st p a = combine (st : Int) (p : Int) (a : Int) := by
  unfold combineN
  by_cases h : st ≤ 9 ∧ p < 10 ^ 17 ∧ a ≤ 9
  · rw [if_pos h, combine_nat_eq st p a h.1 h.2.1 h.2.2]
  · rw [if_neg h]
    unfold combine
    rw [if_neg]
    intro hc
    refine absurd ⟨?_, ?_, ?_⟩ h
    · exact_mod_cast hc.2.1
    · exact_mod_cast hc.2.2.2.1
    · exact_mod_cast hc.2.2.2.2.2

theorem combineN_eq (st p a : Nat) (hst : st ≤ 9) (hp : p < 10 ^ 17)
    (ha : a ≤ 9) :
    combineN st p a = some (st * state_offset + p * 10 + a) := by
  unfold combineN
  rw [if_pos ⟨hst, hp, ha⟩]

theorem combineN_some_iff (st p a s : Nat) :
    combineN st p a = some s ↔
      st ≤ 9 ∧ p < 10 ^ 17 ∧ a ≤ 9 ∧ s = st * state_offset + p * 10 + a := by
  unfold combineN
  by_cases h : st ≤ 9 ∧ p < 10 ^ 17 ∧ a ≤ 9
  · rw [if_pos h]
    simp only [Option.some_inj]
    constructor
    · intro hs
      exact ⟨h.1, h.2.1, h.2.2, hs.symm⟩
    · intro hs
      exact hs.2.2.2.symm
  · rw [if_neg h]
    constructor
    · intro hs
      exact Option.noConfusion hs
    · intro hs
      exact absurd ⟨hs.1, hs.2.1, hs.2.2.1⟩ h

theorem combineN_none_iff (st p a : Nat) :
    combineN st p a = none ↔ (9 < st ∨ 10 ^ 17 ≤ p ∨ 9 < a) := by
  unfold combineN
  by_cases h : st ≤ 9 ∧ p < 10 ^ 17 ∧ a ≤ 9
  · rw [if_pos h]
    constructor
    · intro hs
      exact Option.noConfusion hs
    · intro hs
      exact absurd hs (by omega)
  · rw [if_neg h]
    constructor
    · intro _
      omega
    · intro _
      rfl

end Status

theorem foldl_min_mem (r : Row) (rs : List Row) :
    rs.foldl (fun best x => if x.status < best.status then x else best) r ∈
      r :: rs := by
  induction rs generalizing r with
  | nil => simp
  | cons x xs ih =>
    simp only [List.foldl_cons]
    have h := ih (if x.status < r.status then x else r)
    rcases List.mem_cons.mp h with h1 | h1
    · rw [h1]
      by_cases hc : x.status < r.status
      · simp [hc]
      · simp [hc]
    · simp [List.mem_cons, h1]

theorem selectMinRow_some (rows : List Row) (lo hi : Nat) (w : Row)
    (h : selectMinRow rows lo hi = some w) :
    w ∈ rows ∧ lo ≤ w.status ∧ w.status ≤ hi := by
  unfold selectMinRow at h
  cases hf : rows.filter (fun r => decide (lo ≤ r.status ∧ r.status ≤ hi)) with
  | nil =>
    rw [hf] at h
    exact Option.noConfusion h
  | cons r rs =>
    rw [hf] at h
    simp only [Option.some_inj] at h
    have hmem : w ∈ r :: rs := by
      rw [← h]
      exact foldl_min_mem r rs
    rw [← hf] at hmem
    obtain ⟨hw, hpred⟩ := List.mem_filter.mp hmem
    rw [decide_eq_true_eq] at hpred
    exact ⟨hw, hpred.1, hpred.2⟩

theorem selectMinRow_none (rows : List Row) (lo hi : Nat)
    (h : ∀ r ∈ rows, ¬(lo ≤ r.status ∧ r.status ≤ hi)) :
    selectMinRow rows lo hi = none := by
  unfold selectMinRow
  have hf : rows.filter (fun r => decide (lo ≤ r.status ∧ r.status ≤ hi)) = [] := by
    rw [List.filter_eq_nil_iff]
    intro a ha
    simp only [decide_eq_true_eq]
    exact h a ha
  rw [hf]

theorem reclaimStep_reclaims (rows : List Row) (retry timeout delay n1 n2 : Nat)
    (w : Row)
    (hto : timeout ≤ n1) (hn1 : n1 < 10 ^ 17) (hn2 : n2 + delay < 10 ^ 17)
    (hsel : selectMinRow rows (Status.minimum 3)
      (3 * Status.state_offset + (n1 - timeout) * 10 + 9) = some w)
    (ha : Status.attemptsP w.status ≤ 8) :
    reclaimStep rows retry timeout delay n1 n2 =
      some (updateRow rows w.rid
        ((if Status.attemptsP w.status + 1 ≤ retry then 2 else 5) *
          Status.state_offset + (n2 + delay) * 10 +
          (Status.attemptsP w.status + 1))) := by
  have hbound : Status.combineN 3 (n1 - timeout) 9 =
      some (3 * Status.state_offset + (n1 - timeout) * 10 + 9) :=
    Status.combineN_eq 3 (n1 - timeout) 9 (by norm_num) (by omega) (by norm_num)
  have hwb := selectMinRow_some rows (Status.minimum 3)
    (3 * Status.state_offset + (n1 - timeout) * 10 + 9) w hsel
  have hdiv : w.status / Status.state_offset = 3 := by
    have h1 := hwb.2.1
    have h2 := hwb.2.2
    unfold Status.minimum at h1
    unfold Status.state_offset at h1 h2 ⊢
    omega
  have hstp : Status.stateP w.status = some 3 :=
    Status.stateP_eq_of_div w.status 3 hdiv (by norm_num) (by norm_num)
  have hc2 : Status.combineN (if Status.attemptsP w.status + 1 ≤ retry then 2 else 5)
      (n2 + delay) (Status.attemptsP w.status + 1) =
      some ((if Status.attemptsP w.status + 1 ≤ retry then 2 else 5) *
        Status.state_offset + (n2 + delay) * 10 +
        (Status.attemptsP w.status + 1)) :=
    Status.combineN_eq _ _ _ (by split <;> norm_num) hn2 (by omega)
  simp only [reclaimStep, if_pos hto, hbound, hsel, hstp, hc2, reduceIte]

theorem run_eq_none (rows rows1 : List Row) (outcome : Outcome)
    (retry timeout delay n1 n2 n3 n4 n5 : Nat)
    (hretry : retry ≤ 8) (hn3 : n3 < 10 ^ 17)
    (hrec : reclaimStep rows retry timeout delay n1 n2 = some rows1)
    (hsel : selectMinRow rows1 (Status.minimum 2)
      (2 * Status.state_offset + n3 * 10 + 9) = none) :
    run rows outcome retry timeout delay n1 n2 n3 n4 n5 = RunOut.ok rows1 none := by
  have hmw : Status.combineN 2 n3 9 =
      some (2 * Status.state_offset + n3 * 10 + 9) :=
    Status.combineN_eq 2 n3 9 (by norm_num) hn3 (by norm_num)
  simp only [run, if_pos hretry, hrec]
  simp only [waitStage, hmw, hsel]

theorem run_eq_phaseB (rows rows1 : List Row) (outcome : Outcome)
    (retry timeout delay n1 n2 n3 n4 n5 : Nat) (w : Row)
    (hretry : retry ≤ 8) (hn3 : n3 < 10 ^ 17) (hn4 : n4 < 10 ^ 17)
    (hrec : reclaimStep rows retry timeout delay n1 n2 = some rows1)
    (hsel : selectMinRow rows1 (Status.minimum 2)
      (2 * Status.state_offset + n3 * 10 + 9) = some w) :
    run rows outcome retry timeout delay n1 n2 n3 n4 n5 =
      phaseB (updateRow rows1 w.rid
          (3 * Status.state_offset + n4 * 10 + Status.attemptsP w.status))
        w.rid (Status.attemptsP w.status) outcome retry delay n5 := by
  have hmw : Status.combineN 2 n3 9 =
      some (2 * Status.state_offset + n3 * 10 + 9) :=
    Status.combineN_eq 2 n3 9 (by norm_num) hn3 (by norm_num)
  have hwb := selectMinRow_some rows1 (Status.minimum 2)
    (2 * Status.state_offset + n3 * 10 + 9) w hsel
  have hdiv : w.status / Status.state_offset = 2 := by
    have h1 := hwb.2.1
    have h2 := hwb.2.2
    unfold Status.minimum at h1
    unfold Status.state_offset at h1 h2 ⊢
    omega
  have hstp : Status.stateP w.status = some 2 :=
    Status.stateP_eq_of_div w.status 2 hdiv (by norm_num) (by norm_num)
  have hcl : Status.combineN 3 n4 (Status.attemptsP w.status) =
      some (3 * Status.state_offset + n4 * 10 + Status.attemptsP w.status) :=
    Status.combineN_eq 3 n4 (Status.attemptsP w.status) (by norm_num) hn4
      (Status.attemptsP_le w.status)
  simp only [run, if_pos hretry, hrec]
  simp only [waitStage, hmw, hsel]
  simp only [claimStage, hstp, hcl, reduceIte]

theorem phaseB_ok (rows : List Row) (rid aClaim retry delay n5 : Nat)
    (ha : aClaim ≤ 8) (hn5 : n5 < 10 ^ 17) :
    phaseB rows rid aClaim Outcome.ok retry delay n5 =
      RunOut.ok (updateRow rows rid
          (4 * Status.state_offset + n5 * 10 + (aClaim + 1)))
        (some ⟨rid, 4 * Status.state_offset + n5 * 10 + (aClaim + 1)⟩) := by
  have hc : Status.combineN 4 n5 (aClaim + 1) =
      some (4 * Status.state_offset + n5 * 10 + (aClaim + 1)) :=
    Status.combineN_eq 4 n5 (aClaim + 1) (by norm_num) hn5 (by omega)
  simp only [phaseB, hc]

theorem phaseB_retry (rows : List Row) (rid aClaim retry delay n5 : Nat)
    (dOv : Option Nat) (haC : aClaim ≤ 9) (hn5 : n5 + dOv.getD delay < 10 ^ 17) :
    phaseB rows rid aClaim (Outcome.retrySig dOv) retry delay n5 =
      RunOut.ok (updateRow rows rid
          (2 * Status.state_offset + (n5 + dOv.getD delay) * 10 + aClaim))
        (some ⟨rid, 2 * Status.state_offset + (n5 + dOv.getD delay) * 10 + aClaim⟩) := by
  have hc : Status.combineN 2 (n5 + dOv.getD delay) (aClaim + 1 - 1) =
      some (2 * Status.state_offset + (n5 + dOv.getD delay) * 10 + aClaim) := by
    have he : aClaim + 1 - 1 = aClaim := by omega
    rw [he]
    exact Status.combineN_eq 2 (n5 + dOv.getD delay) aClaim (by norm_num) hn5 haC
  simp only [phaseB, hc]

theorem phaseB_fault (rows : List Row) (rid aClaim retry delay n5 : Nat)
    (ha : aClaim ≤ 8) (hn5 : n5 + delay < 10 ^ 17) :
    phaseB rows rid aClaim Outcome.fault retry delay n5 =
      RunOut.okRaise (updateRow rows rid
          ((if aClaim + 1 ≤ retry then 2 else 5) * Status.state_offset +
            (n5 + (if aClaim + 1 ≤ retry then delay else 0)) * 10 + (aClaim + 1)))
        ⟨rid, (if aClaim + 1 ≤ retry then 2 else 5) * Status.state_offset +
          (n5 + (if aClaim + 1 ≤ retry then delay else 0)) * 10 + (aClaim + 1)⟩ := by
  have hc : Status.combineN (if aClaim + 1 ≤ retry then 2 else 5)
      (n5 + (if aClaim + 1 ≤ retry then delay else 0)) (aClaim + 1) =
      some ((if aClaim + 1 ≤ retry then 2 else 5) * Status.state_offset +
        (n5 + (if aClaim + 1 ≤ retry then delay else 0)) * 10 + (aClaim + 1)) :=
    Status.combineN_eq _ _ _ (by split <;> norm_num) (by split <;> omega) (by omega)
  simp only [phaseB, hc]


/-- C1 counterexample: the round-trip fails inside the claimed domain.
For the valid datetime 0001-01-01 00:00:00 (year below 1000), `combine`
succeeds but `parse` renders the priority through `str(...)`, which
drops the leading zeros, misaligns every field slice and raises while
rebuilding the datetime, so no triple is returned at all. -/
theorem C1_counterexample :
    Status.combineDT 2 ⟨1, 1, 1, 0, 0, 0, 0⟩ 0 = some 2000101010000000000 ∧
    Status.parseDT 2000101010000000000 = none := by
  constructor
  · decide
  · decide

/-- C1 (amended): for every state among the five defined states,
attempts digit 0-9, and priority that is either a 17-digit integer or
a valid datetime whose year is at least 1000 (so that its 17-digit
rendering has no leading zero), `parse` applied to
`combine(state, priority, attempts)` returns the same state and
attempts and the same priority, with sub-millisecond precision
truncated away in the datetime case; integer priorities are read back
with `parse(datetime=False)`, datetime priorities with the default
`parse()`. -/
theorem C1_roundtrip :
    (∀ st p a : Nat, 1 ≤ st → st ≤ 5 → 10 ^ 16 ≤ p → p < 10 ^ 17 → a ≤ 9 →
      ∃ s, Status.combine (st : Int) (p : Int) (a : Int) = some s ∧
        Status.parseNoDT s = some (st, p, a)) ∧
    (∀ st a : Nat, ∀ d : DateTime, 1 ≤ st → st ≤ 5 → a ≤ 9 → d.valid →
      1000 ≤ d.year →
      ∃ s, Status.combineDT (st : Int) d (a : Int) = some s ∧
        Status.parseDT s = some (st, truncMillis d, a)) := by
  constructor
  · intro st p a h1 h5 hp16 hp17 ha
    refine ⟨st * Status.state_offset + p * 10 + a,
      Status.combine_nat_eq st p a (by omega) hp17 ha, ?_⟩
    unfold Status.parseNoDT
    rw [Status.stateP_eq_of_div _ st (Status.div_offset_eq st p a hp17 ha) h1 h5]
    rw [Status.priorityP_eq st p a hp17 ha, Status.attemptsP_eq st p a ha]
    rfl
  · intro st a d h1 h5 ha hd hy
    exact Status.combineDT_parseDT st a d h1 h5 ha hd hy

/-- C1 witness: the round trip at the doctest inputs, once with the
17-digit integer priority and once with the datetime whose 789123
microseconds come back truncated to 789000. -/
theorem C1_roundtrip_witness :
    (∃ s, Status.combine 2 20180102030456789 3 = some s ∧
      Status.parseNoDT s = some (2, 20180102030456789, 3)) ∧
    (∃ s, Status.combineDT 2 ⟨2018, 1, 2, 3, 4, 56, 789123⟩ 3 = some s ∧
      Status.parseDT s = some (2, ⟨2018, 1, 2, 3, 4, 56, 789000⟩, 3)) := by
  constructor
  · exact C1_roundtrip.1 2 20180102030456789 3 (by norm_num) (by norm_num)
      (by norm_num) (by norm_num) (by norm_num)
  · exact C1_roundtrip.2 2 3 ⟨2018, 1, 2, 3, 4, 56, 789123⟩ (by norm_num)
      (by norm_num) (by norm_num) (by decide) (by norm_num)

/-- C7: `minimum(state)` is `state * 10^18` and `maximum(state)` is
`(state+1) * 10^18 - 1`; every `combine(state, p, a)` with valid `p`
and `a` lies inclusively between them; and the ranges of two distinct
states are disjoint (the whole range of the smaller state lies below
the whole range of the larger). -/
theorem C7_range_partition :
    (∀ st : Nat, Status.minimum st = st * 10 ^ 18 ∧
      Status.maximum st = (st + 1) * 10 ^ 18 - 1) ∧
    (∀ st p a : Nat, 1 ≤ st → st ≤ 5 → p < 10 ^ 17 → a ≤ 9 →
      ∃ s, Status.combine (st : Int) (p : Int) (a : Int) = some s ∧
        Status.minimum st ≤ s ∧ s ≤ Status.maximum st) ∧
    (∀ st1 st2 : Nat, st1 < st2 → st2 ≤ 5 →
      Status.maximum st1 < Status.minimum st2) := by
  refine ⟨?_, ?_, ?_⟩
  · intro st
    constructor
    · unfold Status.minimum Status.state_offset
      norm_num
    · unfold Status.maximum Status.state_offset
      norm_num
  · intro st p a h1 h5 hp ha
    refine ⟨st * Status.state_offset + p * 10 + a,
      Status.combine_nat_eq st p a (by omega) hp ha, ?_, ?_⟩
    · unfold Status.minimum Status.state_offset
      omega
    · unfold Status.maximum Status.state_offset
      omega
  · intro st1 st2 h12 h5
    unfold Status.maximum Status.minimum Status.state_offset
    omega

/-- C7 witness: the bounds at the working state, a combined status
inside the waiting range, and disjointness of waiting and working. -/
theorem C7_range_partition_witness :
    (Status.minimum 3 = 3 * 10 ^ 18 ∧ Status.maximum 3 = (3 + 1) * 10 ^ 18 - 1) ∧
    (∃ s, Status.combine 2 5 3 = some s ∧
      Status.minimum 2 ≤ s ∧ s ≤ Status.maximum 2) ∧
    Status.maximum 2 < Status.minimum 3 := by
  refine ⟨C7_range_partition.1 3, ?_, ?_⟩
  · exact C7_range_partition.2.1 2 5 3 (by norm_num) (by norm_num) (by norm_num)
      (by norm_num)
  · exact C7_range_partition.2.2 2 3 (by norm_num) (by norm_num)

/-- C8 counterexample: `combine` does not validate the state against
the five defined values.  State 6 (and even state 0) renders as a
single digit, passes the 19-character assertion and is silently
encoded into a status. -/
theorem C8_counterexample :
    Status.combine 6 0 0 = some 6000000000000000000 ∧
    Status.combine 0 0 0 = some 0 := by
  constructor
  · decide
  · decide

/-- C8 (amended): `combine(state, priority, attempts)` fails with a
validation error exactly when `attempts` is not a single digit
(outside 0-9), or `priority` overflows its 17-digit width (negative or
at least `10^17`), or `state` is not a single digit (outside 0-9);
single-digit states outside the five defined values (0 and 6-9) are
accepted without any validation. -/
theorem C8_validation (st p a : Int) :
    Status.combine st p a = none ↔
      (st < 0 ∨ 9 < st ∨ p < 0 ∨ 10 ^ 17 ≤ p ∨ a < 0 ∨ 9 < a) := by
  unfold Status.combine
  have e : (10 : Int) ^ 17 = 100000000000000000 := by norm_num
  rw [e]
  by_cases h : 0 ≤ st ∧ st ≤ 9 ∧ 0 ≤ p ∧ p < 100000000000000000 ∧
      0 ≤ a ∧ a ≤ 9
  · rw [if_pos h]
    constructor
    · intro hs
      exact Option.noConfusion hs
    · intro hs
      exact absurd hs (by omega)
  · rw [if_neg h]
    constructor
    · intro _
      omega
    · intro _
      rfl

/-- C10: `parse` with its default `datetime=True` is partial over valid
statuses: the status `combine(WAITING, 0, 1)` is built from an
in-range integer priority, yet `parse()` raises because the 17-digit
priority 0 is not the rendering of any calendar timestamp; with
`datetime=False`, `parse` returns the decoded triple for every
19-digit status (leading state digit 1-5). -/
theorem C10_parse_partiality :
    (Status.combine 2 0 1 = some 2000000000000000001 ∧
      Status.parseDT 2000000000000000001 = none) ∧
    (∀ s : Nat, 10 ^ 18 ≤ s → s < 6 * 10 ^ 18 →
      Status.parseNoDT s =
        some (s / Status.state_offset, Status.priorityP s, Status.attemptsP s)) := by
  constructor
  · constructor
    · decide
    · decide
  · intro s h1 h6
    have hdiv : 1 ≤ s / Status.state_offset ∧ s / Status.state_offset ≤ 5 := by
      unfold Status.state_offset
      constructor
      · omega
      · omega
    unfold Status.parseNoDT
    rw [Status.stateP_eq_of_div s (s / Status.state_offset) rfl hdiv.1 hdiv.2]
    rfl

/-- C10 witness: the doctest status 3000000000000000007 parsed with
`datetime=False` into working state, priority 0, attempts 7. -/
theorem C10_parse_partiality_witness :
    Status.parseNoDT 3000000000000000007 = some (3, 0, 7) := by
  exact C10_parse_partiality.2 3000000000000000007 (by norm_num) (by norm_num)


/-- C2 counterexample: a WORKING row with attempts 8 is reclaimed with
`retry = 3`; the new attempts count 9 exceeds the budget, so the claim
predicts CANCELED with priority `now` (the 448 read, here 100), but
the code cancels with priority `now + delay = 105`. -/
theorem C2_counterexample :
    reclaimStep [⟨0, 3000000000000000008⟩] 3 0 5 50 100 =
      some [⟨0, 5000000000000001059⟩] ∧
    Status.priorityP 5000000000000001059 = 105 ∧ (105 : Nat) ≠ 100 := by
  refine ⟨by decide, by decide, by decide⟩

/-- C2 (amended): every row selected for reclaim in Phase A of `run`
(the lowest WORKING row at or below `combine(WORKING, now - timeout,
max_attempts)`) whose attempts digit is at most 8 has its attempts
incremented; if the new count is within `retry` it becomes WAITING,
otherwise CANCELED, in both branches with priority `now + delay`
(a selected row with attempts 9 instead fails the codec width
assertion and rolls the transaction back). -/
theorem C2_reclaim (rows : List Row) (retry timeout delay n1 n2 : Nat) (w : Row)
    (hto : timeout ≤ n1) (hn1 : n1 < 10 ^ 17) (hn2 : n2 + delay < 10 ^ 17)
    (hsel : selectMinRow rows (Status.minimum 3)
      (3 * Status.state_offset + (n1 - timeout) * 10 + 9) = some w)
    (ha : Status.attemptsP w.status ≤ 8) :
    ∃ s, Status.combineN
        (if Status.attemptsP w.status + 1 ≤ retry then 2 else 5)
        (n2 + delay) (Status.attemptsP w.status + 1) = some s ∧
      reclaimStep rows retry timeout delay n1 n2 =
        some (updateRow rows w.rid s) := by
  refine ⟨(if Status.attemptsP w.status + 1 ≤ retry then 2 else 5) *
      Status.state_offset + (n2 + delay) * 10 + (Status.attemptsP w.status + 1),
    Status.combineN_eq _ _ _ (by split <;> norm_num) hn2 (by omega), ?_⟩
  exact reclaimStep_reclaims rows retry timeout delay n1 n2 w hto hn1 hn2 hsel ha

/-- C2 witness: a WORKING row with attempts 2 and `retry = 3` is
requeued as WAITING with priority `now + delay = 105` and attempts 3. -/
theorem C2_reclaim_witness :
    ∃ s, Status.combineN 2 105 3 = some s ∧
      reclaimStep [⟨0, 3000000000000000002⟩] 3 0 5 50 100 =
        some (updateRow [⟨0, 3000000000000000002⟩] 0 s) := by
  exact C2_reclaim [⟨0, 3000000000000000002⟩] 3 0 5 50 100
    ⟨0, 3000000000000000002⟩ (by decide) (by decide) (by decide) (by decide)
    (by decide)

/-- C3 counterexample: a WAITING row with attempts 9 (a value the
status format documents as valid and the claim boundary includes) is
claimed and its no-op callback returns, but the resolution
`Status.finished(now(), 10)` fails the 19-character assertion, so
`run` raises with the row stuck in WORKING state instead of returning
it as FINISHED. -/
theorem C3_counterexample :
    run [⟨0, 2000000000000000009⟩] Outcome.ok 3 0 0 0 0 5 6 7 =
      RunOut.err [⟨0, 3000000000000000069⟩] ∧
    ¬ ∃ rows2 r, run [⟨0, 2000000000000000009⟩] Outcome.ok 3 0 0 0 0 5 6 7 =
      RunOut.ok rows2 (some r) := by
  constructor
  · decide
  · intro hex
    obtain ⟨rows2, r, hr⟩ := hex
    rw [show run [⟨0, 2000000000000000009⟩] Outcome.ok 3 0 0 0 0 5 6 7 =
      RunOut.err [⟨0, 3000000000000000069⟩] from by decide] at hr
    exact RunOut.noConfusion hr

/-- C3 (amended): every `run` call that claims a WAITING row whose
attempts digit at claim time is at most 8, and whose callback returns
without raising, returns that row with state FINISHED, priority `now`
(the resolution read) and attempts incremented by one (at claim-time
attempts 9 the FINISHED status overflows the attempts digit and `run`
raises instead). -/
theorem C3_success (rows rows1 : List Row)
    (retry timeout delay n1 n2 n3 n4 n5 : Nat) (w : Row)
    (hretry : retry ≤ 8) (hn3 : n3 < 10 ^ 17) (hn4 : n4 < 10 ^ 17)
    (hn5 : n5 < 10 ^ 17)
    (hrec : reclaimStep rows retry timeout delay n1 n2 = some rows1)
    (hsel : selectMinRow rows1 (Status.minimum 2)
      (2 * Status.state_offset + n3 * 10 + 9) = some w)
    (ha : Status.attemptsP w.status ≤ 8) :
    ∃ s, Status.combineN 4 n5 (Status.attemptsP w.status + 1) = some s ∧
      run rows Outcome.ok retry timeout delay n1 n2 n3 n4 n5 =
        RunOut.ok
          (updateRow (updateRow rows1 w.rid
            (3 * Status.state_offset + n4 * 10 + Status.attemptsP w.status))
            w.rid s)
          (some ⟨w.rid, s⟩) := by
  refine ⟨4 * Status.state_offset + n5 * 10 + (Status.attemptsP w.status + 1),
    Status.combineN_eq 4 n5 _ (by norm_num) hn5 (by omega), ?_⟩
  rw [run_eq_phaseB rows rows1 Outcome.ok retry timeout delay n1 n2 n3 n4 n5 w
    hretry hn3 hn4 hrec hsel]
  exact phaseB_ok _ w.rid _ retry delay n5 ha hn5

/-- C3 witness: the claim scenario.  A row in the default constructor
status (WAITING, priority = now = 100, attempts 0) processed by a
no-op callback comes back FINISHED with attempts 1. -/
theorem C3_success_witness :
    ∃ s, Status.combineN 4 100 1 = some s ∧
      run [⟨7, 2000000000000001000⟩] Outcome.ok 3 0 0 0 0 100 100 100 =
        RunOut.ok
          (updateRow (updateRow [⟨7, 2000000000000001000⟩] 7
            3000000000000001000) 7 s)
          (some ⟨7, s⟩) := by
  exact C3_success [⟨7, 2000000000000001000⟩] [⟨7, 2000000000000001000⟩]
    3 0 0 0 0 100 100 100 ⟨7, 2000000000000001000⟩ (by decide) (by decide)
    (by decide) (by decide) (by decide) (by decide) (by decide)

/-- C4 counterexample: with claim-time attempts 9 the fault path must
cancel (attempts 10 exceeds any budget), but `Status.canceled(now(),
10)` fails the codec assertion, so the row stays WORKING, nothing is
resolved, and the caller sees the assertion error rather than the
persisted-then-re-raised fault the claim promises. -/
theorem C4_counterexample :
    run [⟨0, 2000000000000000009⟩] Outcome.fault 3 0 0 0 0 5 6 7 =
      RunOut.err [⟨0, 3000000000000000069⟩] ∧
    ¬ ∃ rows2 r, run [⟨0, 2000000000000000009⟩] Outcome.fault 3 0 0 0 0 5 6 7 =
      RunOut.okRaise rows2 r := by
  constructor
  · decide
  · intro hex
    obtain ⟨rows2, r, hr⟩ := hex
    rw [show run [⟨0, 2000000000000000009⟩] Outcome.fault 3 0 0 0 0 5 6 7 =
      RunOut.err [⟨0, 3000000000000000069⟩] from by decide] at hr
    exact RunOut.noConfusion hr

/-- C4 (amended): for every `run` call whose callback raises a fault
that is not a Retry, Abort or Cancel signal, provided the claim-time
attempts digit is at most 8, the claimed row is resolved exactly as on
the abort penalty path with the call delay, attempts incremented, then
WAITING with priority `now + delay` when within `retry`, else CANCELED
with priority `now`; the resolution is persisted in its own atomic
transaction and only then is the fault re-raised (at claim-time
attempts 9 the codec assertion fires instead and the row is left
WORKING). -/
theorem C4_fault (rows rows1 : List Row)
    (retry timeout delay n1 n2 n3 n4 n5 : Nat) (w : Row)
    (hretry : retry ≤ 8) (hn3 : n3 < 10 ^ 17) (hn4 : n4 < 10 ^ 17)
    (hn5 : n5 + delay < 10 ^ 17)
    (hrec : reclaimStep rows retry timeout delay n1 n2 = some rows1)
    (hsel : selectMinRow rows1 (Status.minimum 2)
      (2 * Status.state_offset + n3 * 10 + 9) = some w)
    (ha : Status.attemptsP w.status ≤ 8) :
    ∃ s, Status.combineN
        (if Status.attemptsP w.status + 1 ≤ retry then 2 else 5)
        (n5 + (if Status.attemptsP w.status + 1 ≤ retry then delay else 0))
        (Status.attemptsP w.status + 1) = some s ∧
      run rows Outcome.fault retry timeout delay n1 n2 n3 n4 n5 =
        RunOut.okRaise
          (updateRow (updateRow rows1 w.rid
            (3 * Status.state_offset + n4 * 10 + Status.attemptsP w.status))
            w.rid s)
          ⟨w.rid, s⟩ := by
  refine ⟨(if Status.attemptsP w.status + 1 ≤ retry then 2 else 5) *
      Status.state_offset +
      (n5 + (if Status.attemptsP w.status + 1 ≤ retry then delay else 0)) * 10 +
      (Status.attemptsP w.status + 1),
    Status.combineN_eq _ _ _ (by split <;> norm_num) (by split <;> omega)
      (by omega), ?_⟩
  rw [run_eq_phaseB rows rows1 Outcome.fault retry timeout delay n1 n2 n3 n4 n5 w
    hretry hn3 hn4 hrec hsel]
  exact phaseB_fault _ w.rid _ retry delay n5 ha hn5

/-- C4 witness: a faulting callback on a fresh WAITING row with
`retry = 3` and `delay = 5`; the row is requeued as WAITING with
priority `now + delay = 105` and attempts 1, and the fault is
re-raised after the write. -/
theorem C4_fault_witness :
    ∃ s, Status.combineN 2 105 1 = some s ∧
      run [⟨7, 2000000000000001000⟩] Outcome.fault 3 0 5 0 0 100 100 100 =
        RunOut.okRaise
          (updateRow (updateRow [⟨7, 2000000000000001000⟩] 7
            3000000000000001000) 7 s)
          ⟨7, s⟩ := by
  exact C4_fault [⟨7, 2000000000000001000⟩] [⟨7, 2000000000000001000⟩]
    3 0 5 0 0 100 100 100 ⟨7, 2000000000000001000⟩ (by decide) (by decide)
    (by decide) (by decide) (by decide) (by decide) (by decide)

/-- C5: for every `run` call whose callback raises the Retry signal,
the claimed row is resolved to WAITING with priority `now + (the
signal override delay if given, else the call delay)` and its attempts
digit equals the claim-time value, unchanged: a retry signal never
consumes retry budget. -/
theorem C5_retry_signal (rows rows1 : List Row) (dOv : Option Nat)
    (retry timeout delay n1 n2 n3 n4 n5 : Nat) (w : Row)
    (hretry : retry ≤ 8) (hn3 : n3 < 10 ^ 17) (hn4 : n4 < 10 ^ 17)
    (hn5 : n5 + dOv.getD delay < 10 ^ 17)
    (hrec : reclaimStep rows retry timeout delay n1 n2 = some rows1)
    (hsel : selectMinRow rows1 (Status.minimum 2)
      (2 * Status.state_offset + n3 * 10 + 9) = some w) :
    ∃ s, Status.combineN 2 (n5 + dOv.getD delay)
        (Status.attemptsP w.status) = some s ∧
      run rows (Outcome.retrySig dOv) retry timeout delay n1 n2 n3 n4 n5 =
        RunOut.ok
          (updateRow (updateRow rows1 w.rid
            (3 * Status.state_offset + n4 * 10 + Status.attemptsP w.status))
            w.rid s)
          (some ⟨w.rid, s⟩) := by
  refine ⟨2 * Status.state_offset + (n5 + dOv.getD delay) * 10 +
      Status.attemptsP w.status,
    Status.combineN_eq 2 _ _ (by norm_num) hn5 (Status.attemptsP_le w.status), ?_⟩
  rw [run_eq_phaseB rows rows1 (Outcome.retrySig dOv) retry timeout delay
    n1 n2 n3 n4 n5 w hretry hn3 hn4 hrec hsel]
  exact phaseB_retry _ w.rid _ retry delay n5 dOv (Status.attemptsP_le w.status)
    hn5

/-- C5 witness: a Retry signal with override delay 42 on a WAITING row
with attempts 3; the row is requeued with priority `now + 42 = 142`
and attempts still 3. -/
theorem C5_retry_signal_witness :
    ∃ s, Status.combineN 2 142 3 = some s ∧
      run [⟨7, 2000000000000001003⟩] (Outcome.retrySig (some 42))
          3 0 5 0 0 100 100 100 =
        RunOut.ok
          (updateRow (updateRow [⟨7, 2000000000000001003⟩] 7
            3000000000000001003) 7 s)
          (some ⟨7, s⟩) := by
  exact C5_retry_signal [⟨7, 2000000000000001003⟩] [⟨7, 2000000000000001003⟩]
    (some 42) 3 0 5 0 0 100 100 100 ⟨7, 2000000000000001003⟩ (by decide)
    (by decide) (by decide) (by decide) (by decide) (by decide)

/-- C6 counterexample: a row set whose only row is WORKING and past the
reclaim boundary contains no WAITING row with priority at most now,
yet `run` reclaims it into WAITING inside the same transaction,
immediately claims it, invokes the callback and returns the finished
row, not the "none available" value. -/
theorem C6_counterexample :
    run [⟨0, 3000000000000000000⟩] Outcome.ok 3 10 0 10 5 5 6 7 =
      RunOut.ok [⟨0, 4000000000000000072⟩] (some ⟨0, 4000000000000000072⟩) ∧
    run [⟨0, 3000000000000000000⟩] Outcome.ok 3 10 0 10 5 5 6 7 ≠
      RunOut.ok [⟨0, 3000000000000000000⟩] none := by
  constructor
  · decide
  · decide

/-- C6 (amended): for every row set containing no WAITING row with
priority at most now and also no WORKING row at or below the reclaim
boundary (which Phase A could have turned into an eligible WAITING
row), `run` returns the distinct "none available" value with the row
set unmodified, for every callback outcome; in particular
future-scheduled WAITING rows are never claimed. -/
theorem C6_returns_none (rows : List Row) (outcome : Outcome)
    (retry timeout delay n1 n2 n3 n4 n5 : Nat)
    (hretry : retry ≤ 8) (hto : timeout ≤ n1) (hn1 : n1 < 10 ^ 17)
    (hn3 : n3 < 10 ^ 17)
    (hnowork : ∀ r ∈ rows, ¬ (Status.minimum 3 ≤ r.status ∧
      r.status ≤ 3 * Status.state_offset + (n1 - timeout) * 10 + 9))
    (hnowait : ∀ r ∈ rows, ¬ (Status.minimum 2 ≤ r.status ∧
      r.status ≤ 2 * Status.state_offset + n3 * 10 + 9)) :
    run rows outcome retry timeout delay n1 n2 n3 n4 n5 =
      RunOut.ok rows none := by
  have hbound : Status.combineN 3 (n1 - timeout) 9 =
      some (3 * Status.state_offset + (n1 - timeout) * 10 + 9) :=
    Status.combineN_eq 3 (n1 - timeout) 9 (by norm_num) (by omega) (by norm_num)
  have hselw : selectMinRow rows (Status.minimum 3)
      (3 * Status.state_offset + (n1 - timeout) * 10 + 9) = none :=
    selectMinRow_none rows _ _ hnowork
  have hrec : reclaimStep rows retry timeout delay n1 n2 = some rows := by
    simp only [reclaimStep, if_pos hto, hbound, hselw]
  have hselwait : selectMinRow rows (Status.minimum 2)
      (2 * Status.state_offset + n3 * 10 + 9) = none :=
    selectMinRow_none rows _ _ hnowait
  exact run_eq_none rows rows outcome retry timeout delay n1 n2 n3 n4 n5
    hretry hn3 hrec hselwait

/-- C6 witness: the claim scenario.  The only row is WAITING scheduled
one hour in the future (priority 3600000 ms past now = 0), so `run`
returns the "none available" value and leaves the set untouched. -/
theorem C6_returns_none_witness :
    run [⟨0, 2000000000036000000⟩] Outcome.ok 3 0 0 0 0 0 0 0 =
      RunOut.ok [⟨0, 2000000000036000000⟩] none := by
  exact C6_returns_none [⟨0, 2000000000036000000⟩] Outcome.ok 3 0 0 0 0 0 0 0
    (by decide) (by decide) (by decide) (by decide) (by decide) (by decide)

end ModelQueue

